import Mathlib

/-
Verification of the SaaS-starter data model and operations.

The development shallowly embeds:
  * the five-table schema of `supabase/migrations` (users, teams,
    team_members, activity_logs, invitations), including the
    `unique(user_id, team_id)` constraint on team_members and the
    foreign-key constraints relevant to the modelled operations;
  * the stored functions `accept_invitation` and `request_to_join_team`
    of the enhanced-invitation migration;
  * the final ("complete RLS fix") row-level-security policy set, which
    is what remains in force after the rollback migration drops the
    enhanced-invitation policies;
  * the query-layer functions of `lib/db/queries.ts` (`getUser`,
    `getUserWithTeam`, `getActivityLogs`, `getTeamForUser`, `createTeam`)
    and the auth-adapter `getUser` of `lib/auth/supabase.ts`.

Timestamps and ids are Nat; uuids, emails, roles and statuses are
String, as the schema stores them (status is a varchar compared against
string literals, not an enum).  Fallible remote inserts are modelled
with Option / Except, and the plpgsql `exception when others` block of
`accept_invitation` is modelled by rolling the state back to the entry
state, matching subtransaction semantics.
-/

/-- Row of `public.users` (the application Profile table):
id uuid (references auth.users), name, role, created_at, updated_at,
deleted_at (soft-delete marker, null = active). -/
structure Profile where
  id : String
  name : Option String
  role : String
  created_at : Nat
  updated_at : Nat
  deleted_at : Option Nat
  deriving Repr, DecidableEq

/-- Row of `public.teams`: identity id, name, timestamps, Stripe billing
fields and the invite_code added by the enhanced-invitation migration. -/
structure Team where
  id : Nat
  name : String
  created_at : Nat
  updated_at : Nat
  stripe_customer_id : Option String
  stripe_subscription_id : Option String
  stripe_product_id : Option String
  plan_name : Option String
  subscription_status : Option String
  invite_code : Option String
  deriving Repr, DecidableEq

/-- Row of `public.team_members`: the Membership junction table with
`unique(user_id, team_id)`. -/
structure TeamMember where
  id : Nat
  user_id : String
  team_id : Nat
  role : String
  joined_at : Nat
  deriving Repr, DecidableEq

/-- Row of `public.activity_logs`: append-only audit trail; user_id is
nullable (`on delete set null`). -/
structure ActivityLog where
  id : Nat
  team_id : Nat
  user_id : Option String
  action : String
  timestamp : Nat
  ip_address : Option String
  deriving Repr, DecidableEq

/-- Row of `public.invitations`: status is a varchar holding
"pending", "requested", "accepted", "expired" or "cancelled". -/
structure Invitation where
  id : Nat
  team_id : Nat
  email : String
  role : String
  invited_by : String
  invited_at : Nat
  status : String
  deriving Repr, DecidableEq

/-- The database state: the five tables plus identity-counter state for
the `generated always as identity` columns and a clock for `now()`
defaults. -/
structure Store where
  users : List Profile
  teams : List Team
  team_members : List TeamMember
  activity_logs : List ActivityLog
  invitations : List Invitation
  nextTeamId : Nat
  nextMemberId : Nat
  nextLogId : Nat
  nextInvitationId : Nat
  now : Nat
  deriving Repr, DecidableEq

/-- The empty database right after the migrations have run. -/
def initStore : Store :=
  { users := [], teams := [], team_members := [], activity_logs := [],
    invitations := [], nextTeamId := 1, nextMemberId := 1, nextLogId := 1,
    nextInvitationId := 1, now := 0 }

/-- Record of `auth.users` held by the identity provider (only the fields
the embedded code reads). -/
structure AuthUser where
  id : String
  email : Option String
  deriving Repr, DecidableEq

/-- Request context: the ambient session (`supabase.auth.getUser()`)
and the provider's user listing (`supabase.auth.admin.listUsers()`). -/
structure Ctx where
  authUser : Option AuthUser
  authUsers : List AuthUser
  deriving Repr, DecidableEq

/-- Foreign-key check for a nullable reference into `public.users`
(e.g. `activity_logs.user_id`): null is allowed, a non-null id must
exist. -/
def userFkOk (s : Store) (uid : Option String) : Bool :=
  match uid with
  | none => true
  | some u => s.users.any (fun x => x.id == u)

/-- Insert into `public.team_members`, enforcing the schema's
constraints: `unique(user_id, team_id)`, plus the foreign keys into
`public.users` and `public.teams`.  Returns `none` when a constraint is
violated (the SQL insert raises). -/
def insertTeamMember (s : Store) (uid : String) (tid : Nat) (role : String) :
    Option Store :=
  if s.team_members.any (fun m => m.user_id == uid && m.team_id == tid) then
    none
  else if !(s.users.any (fun u => u.id == uid)) then none
  else if !(s.teams.any (fun t => t.id == tid)) then none
  else
    some { s with
      team_members := s.team_members ++
        [{ id := s.nextMemberId, user_id := uid, team_id := tid,
           role := role, joined_at := s.now }],
      nextMemberId := s.nextMemberId + 1 }

/-- Function `public.log_activity(p_team_id, p_action, p_ip_address)`: insert an
activity-log row with `user_id = auth.uid()`, enforcing the foreign
keys (team must exist; a non-null user must exist). Returns `none` when
the insert raises. -/
def log_activity (s : Store) (authUid : Option String) (teamId : Nat)
    (action : String) (ip : Option String) : Option Store :=
  if s.teams.any (fun t => t.id == teamId) && userFkOk s authUid then
    some { s with
      activity_logs := s.activity_logs ++
        [{ id := s.nextLogId, team_id := teamId, user_id := authUid,
           action := action, timestamp := s.now, ip_address := ip }],
      nextLogId := s.nextLogId + 1 }
  else none

/-- Function `public.accept_invitation(invitation_id, user_id)`:
select the invitation where `id = invitation_id and status = 'pending'`;
if absent return false; otherwise insert the Membership with the
invitation's team and role, set the invitation's status to 'accepted',
log `ACCEPT_INVITATION`, and return true.  Any exception (e.g. the
unique or foreign-key constraints of the insert) is caught by the
`exception when others` block, which rolls the whole block back and
returns false. -/
def accept_invitation (s : Store) (authUid : Option String)
    (invitationId : Nat) (userId : String) : Store × Bool :=
  match s.invitations.find?
      (fun i => i.id == invitationId && i.status == "pending") with
  | none => (s, false)
  | some inv =>
    match insertTeamMember s userId inv.team_id inv.role with
    | none => (s, false)
    | some s1 =>
      let s2 := { s1 with
        invitations := s1.invitations.map
          (fun i => if i.id == invitationId then { i with status := "accepted" }
                    else i) }
      match log_activity s2 authUid inv.team_id "ACCEPT_INVITATION" none with
      | none => (s, false)
      | some s3 => (s3, true)

/-- Function `public.request_to_join_team(team_invite_code, user_email,
requesting_user_id)`: resolve the team by invite code (null if absent);
return null if the requester is already a member, or if a pending or
requested invitation for that team and email already exists; otherwise
insert an invitation with role 'member' and status 'requested', log
`REQUEST_TO_JOIN`, and return the new invitation id.  There is no
exception handler, so a raising insert aborts the whole call with no
row inserted (`Except.error`). -/
def request_to_join_team (s : Store) (authUid : Option String)
    (teamInviteCode : String) (userEmail : String)
    (requestingUserId : String) : Except String (Store × Option Nat) :=
  match s.teams.find? (fun t => t.invite_code == some teamInviteCode) with
  | none => .ok (s, none)
  | some team =>
    if s.team_members.any
        (fun m => m.team_id == team.id && m.user_id == requestingUserId) then
      .ok (s, none)
    else if s.invitations.any
        (fun i => i.team_id == team.id && i.email == userEmail &&
                  (i.status == "pending" || i.status == "requested")) then
      .ok (s, none)
    else if !(s.users.any (fun u => u.id == requestingUserId)) then
      .error "insert or update on table invitations violates foreign key"
    else
      let invId := s.nextInvitationId
      let s1 := { s with
        invitations := s.invitations ++
          [{ id := invId, team_id := team.id, email := userEmail,
             role := "member", invited_by := requestingUserId,
             invited_at := s.now, status := "requested" }],
        nextInvitationId := invId + 1 }
      match log_activity s1 authUid team.id "REQUEST_TO_JOIN" none with
      | none => .error "log_activity raised"
      | some s2 => .ok (s2, some invId)

/-- Modelled from the spec: the sign-up handler's invitation path lives
in `app/(login)/actions.ts`, which is not among the provided sources.
Per the spec, "if an invitation id is supplied, it must resolve to a
*pending* invitation matching the submitted email exactly; on match,
the invitation's team/role are adopted and the invitation is marked
accepted" -- the adoption being the embedded `accept_invitation`; on no
match the operation fails and nothing is inserted. -/
def signUpAcceptInvitation (s : Store) (invitationId : Nat)
    (submittedEmail : String) (newUserId : String) : Store × Bool :=
  match s.invitations.find?
      (fun i => i.id == invitationId && i.status == "pending" &&
                i.email == submittedEmail) with
  | none => (s, false)
  | some _ => accept_invitation s (some newUserId) invitationId newUserId

/-- Modelled from the spec: the invite-member handler lives in
`app/(login)/actions.ts`, which is not among the provided sources.  Per
the spec, "Invite member: rejects if the invitee's identity already has
Membership in the caller's team, or if a pending Invitation to that
email for that team already exists; otherwise inserts a new pending
Invitation." -/
def inviteMember (s : Store) (callerId : String) (teamId : Nat)
    (email : String) (role : String) (inviteeId : Option String) :
    Store × Bool :=
  if (match inviteeId with
      | some uid => s.team_members.any
          (fun m => m.team_id == teamId && m.user_id == uid)
      | none => false) then (s, false)
  else if s.invitations.any
      (fun i => i.team_id == teamId && i.email == email &&
                i.status == "pending") then (s, false)
  else
    ({ s with
        invitations := s.invitations ++
          [{ id := s.nextInvitationId, team_id := teamId, email := email,
             role := role, invited_by := callerId, invited_at := s.now,
             status := "pending" }],
        nextInvitationId := s.nextInvitationId + 1 }, true)

/-- Insert of a Profile row (sign-up creates the identity, then the
profile keyed by the identity id; primary-key uniqueness enforced). -/
def insertProfile (s : Store) (uid : String) (name : Option String) :
    Option Store :=
  if s.users.any (fun u => u.id == uid) then none
  else
    some { s with
      users := s.users ++
        [{ id := uid, name := name, role := "member", created_at := s.now,
           updated_at := s.now, deleted_at := none }] }

/-- Supabase `.single()`: succeeds with the row when the result set has
exactly one row, otherwise errors (the callers read only `data`, which
is then null). -/
def singleRow {α : Type} : List α → Option α
  | [x] => some x
  | _ => none

/-- Embeds `lib/db/queries.ts` `getUser`: resolve the ambient identity (null
when absent), then select from `users` where `id = authUser.id` and
`deleted_at is null`, `.single()`. -/
def queriesGetUser (ctx : Ctx) (s : Store) : Option Profile :=
  match ctx.authUser with
  | none => none
  | some au =>
    singleRow (s.users.filter
      (fun u => u.id == au.id && u.deleted_at == none))

/-- Embeds `lib/auth/supabase.ts` `getUser`: resolve the ambient identity
(null when absent), then select from `users` where `id = authUser.id`,
`.single()` — with no `deleted_at` filter. -/
def authGetUser (ctx : Ctx) (s : Store) : Option Profile :=
  match ctx.authUser with
  | none => none
  | some au => singleRow (s.users.filter (fun u => u.id == au.id))

/-- Embeds `lib/db/queries.ts` `getUserWithTeam(userId)`: select
`team_id, users!inner(*)` from `team_members` where
`user_id = userId`, `.single()`; the inner join drops membership rows
whose profile row is missing. -/
def getUserWithTeam (s : Store) (userId : String) :
    Option (Profile × Nat) :=
  singleRow
    ((s.team_members.filter (fun m => m.user_id == userId)).filterMap
      (fun m => (s.users.find? (fun u => u.id == m.user_id)).map
        (fun u => (u, m.team_id))))

/-- JavaScript `x || 'Unknown'` on a nullable string: null, undefined
and the empty string are all falsy. -/
def orUnknown (x : Option String) : String :=
  match x with
  | none => "Unknown"
  | some n => if n == "" then "Unknown" else n

/-- The display name attached to an activity-log row:
`log.users?.name || 'Unknown'`, where `users` is the (outer) join over
`activity_logs.user_id`. -/
def userNameOf (s : Store) (l : ActivityLog) : String :=
  orUnknown ((l.user_id.bind (fun uid => s.users.find? (fun u => u.id == uid))).bind
    (fun u => u.name))

/-- Shape of the rows `getActivityLogs` returns. -/
structure LogEntry where
  id : Nat
  action : String
  timestamp : Nat
  ipAddress : Option String
  userName : String
  deriving Repr, DecidableEq

/-- Insert a log row into a timestamp-descending list, keeping it
descending (model of `order('timestamp', { ascending: false })`). -/
def insertDesc (a : ActivityLog) : List ActivityLog → List ActivityLog
  | [] => [a]
  | x :: xs =>
    if a.timestamp ≥ x.timestamp then a :: x :: xs
    else x :: insertDesc a xs

/-- Sort activity-log rows by timestamp, newest first. -/
def sortDesc : List ActivityLog → List ActivityLog
  | [] => []
  | x :: xs => insertDesc x (sortDesc xs)

/-- Embeds `lib/db/queries.ts` `getActivityLogs()`: throw when `getUser()` is
null; return `[]` when `getUserWithTeam` is null; otherwise select the
caller's team's logs ordered by timestamp descending, limited to 10,
mapped to `LogEntry` with `userName = log.users?.name || 'Unknown'`. -/
def getActivityLogs (ctx : Ctx) (s : Store) :
    Except String (List LogEntry) :=
  match queriesGetUser ctx s with
  | none => .error "User not authenticated"
  | some user =>
    match getUserWithTeam s user.id with
    | none => .ok []
    | some (_, teamId) =>
      .ok (((sortDesc (s.activity_logs.filter
              (fun l => l.team_id == teamId))).take 10).map
        (fun l =>
          { id := l.id, action := l.action, timestamp := l.timestamp,
            ipAddress := l.ip_address, userName := userNameOf s l }))

/-- One member entry of the structure `getTeamForUser` returns. -/
structure TeamMemberView where
  id : Nat
  role : String
  joinedAt : Nat
  userId : String
  userName : Option String
  userEmail : Option String
  deriving Repr, DecidableEq

/-- The structure `getTeamForUser` returns: the team row plus the
transformed member list. -/
structure TeamView where
  team : Team
  teamMembers : List TeamMemberView
  deriving Repr, DecidableEq

/-- Embeds `lib/db/queries.ts` `getTeamForUser()`: null when `getUser()` is
null; select the caller's membership row joined (`!inner`) to its team,
`.single()` — null when absent; then join all of that team's membership
rows (`!inner`) to their profiles, and attach each member's email from
the identity provider's user listing (`auth.admin.listUsers()`),
defaulting to null. -/
def getTeamForUser (ctx : Ctx) (s : Store) : Option TeamView :=
  match queriesGetUser ctx s with
  | none => none
  | some user =>
    match singleRow
        ((s.team_members.filter (fun m => m.user_id == user.id)).filterMap
          (fun m => (s.teams.find? (fun t => t.id == m.team_id)).map
            (fun t => (m, t)))) with
    | none => none
    | some (_, t) =>
      some
        { team := t,
          teamMembers :=
            ((s.team_members.filter (fun mm => mm.team_id == t.id)).filterMap
              (fun mm => (s.users.find? (fun u => u.id == mm.user_id)).map
                (fun u => (mm, u)))).map
              (fun p =>
                { id := p.1.id, role := p.1.role, joinedAt := p.1.joined_at,
                  userId := p.2.id, userName := p.2.name,
                  userEmail :=
                    (ctx.authUsers.find? (fun au => au.id == p.2.id)).bind
                      (fun au => au.email) }) }

/-- The Team row `createTeam` inserts (`insert({ name })` with all
other columns defaulted). -/
def mkTeam (s : Store) (name : String) : Team :=
  { id := s.nextTeamId, name := name, created_at := s.now,
    updated_at := s.now, stripe_customer_id := none,
    stripe_subscription_id := none, stripe_product_id := none,
    plan_name := none, subscription_status := none,
    invite_code := none }

/-- Embeds `lib/db/queries.ts` `createTeam(name, userId)`: insert the Team row
first; on failure throw "Failed to create team".  Then insert the
creator's Membership with role 'owner'; on failure throw "Failed to add
user to team" — with no compensating delete of the already-inserted
Team row.  `teamInsertOk` / `memberInsertOk` model the remote inserts'
external failure modes; the membership insert additionally fails on the
schema constraints via `insertTeamMember`. -/
def createTeam (s : Store) (name : String) (userId : String)
    (teamInsertOk memberInsertOk : Bool) : Store × Except String Team :=
  if !teamInsertOk then (s, .error "Failed to create team")
  else
    let team := mkTeam s name
    let s1 := { s with teams := s.teams ++ [team],
                       nextTeamId := s.nextTeamId + 1 }
    if !memberInsertOk then (s1, .error "Failed to add user to team")
    else
      match insertTeamMember s1 userId team.id "owner" with
      | none => (s1, .error "Failed to add user to team")
      | some s2 => (s2, .ok team)

/-- SQL operation a row-level-security policy applies to. -/
inductive Op : Type
  | select
  | insert
  | update
  | delete
  deriving Repr, DecidableEq

/-- Database role of the caller: `authenticated` or `anon`. -/
inductive DbRole : Type
  | authenticated
  | anon
  deriving Repr, DecidableEq

/-
The final policy set is the one created by the "Complete RLS Fix"
migration; the later enhanced-invitation migration added two further
select policies on invitations, but the rollback migration drops
exactly those two again, so the adopted set is the complete-fix set.
Each def below is one SQL `create policy`; `uid` is `auth.uid()`
(none for anon callers).  A SQL comparison with null is not true, so
`id = auth.uid()` evaluates to false when there is no uid.
-/

/-- Policy `create policy "users_select_own" on public.users for select to
authenticated using (id = auth.uid())`. -/
def users_select_own (r : DbRole) (uid : Option String) (row : Profile) : Bool :=
  r == .authenticated && uid == some row.id

/-- Policy `create policy "users_insert_own" on public.users for insert to
authenticated with check (id = auth.uid())`. -/
def users_insert_own (r : DbRole) (uid : Option String) (row : Profile) : Bool :=
  r == .authenticated && uid == some row.id

/-- Policy `create policy "users_update_own" on public.users for update to
authenticated using (id = auth.uid()) with check (id = auth.uid())`. -/
def users_update_own (r : DbRole) (uid : Option String) (row : Profile) : Bool :=
  r == .authenticated && uid == some row.id

/-- The four `teams_*_all` policies: every operation on teams is open
to any authenticated caller (`using (true)` / `with check (true)`). -/
def teams_all_policy (r : DbRole) : Bool :=
  r == .authenticated

/-- The four `team_members_*_all` policies: every operation on
team_members is open to any authenticated caller. -/
def team_members_all_policy (r : DbRole) : Bool :=
  r == .authenticated

/-- Policies `activity_logs_select_all` / `activity_logs_insert_all`: select and
insert on activity_logs are open to any authenticated caller. -/
def activity_logs_all_policy (r : DbRole) : Bool :=
  r == .authenticated

/-- The `invitations_*_all` policies (authenticated). -/
def invitations_all_policy (r : DbRole) : Bool :=
  r == .authenticated

/-- Policy `create policy "invitations_select_anon" on public.invitations for
select to anon using (true)`. -/
def invitations_select_anon (r : DbRole) : Bool :=
  r == .anon

/-- Whether the final policy set permits `op` on a `public.users` row
for a caller with role `r` and identity `uid`.  Policies are
PERMISSIVE, so the row is allowed when any policy for (table, op, role)
passes; `public.users` has no delete policy at all, so with RLS enabled
delete is always denied. -/
def users_allowed (op : Op) (r : DbRole) (uid : Option String)
    (row : Profile) : Bool :=
  match op with
  | .select => users_select_own r uid row
  | .insert => users_insert_own r uid row
  | .update => users_update_own r uid row
  | .delete => false

/-- Whether the final policy set permits `op` on a `public.teams` row. -/
def teams_allowed (op : Op) (r : DbRole) (_uid : Option String)
    (_row : Team) : Bool :=
  match op with
  | .select | .insert | .update | .delete => teams_all_policy r

/-- Whether the final policy set permits `op` on a `public.team_members`
row. -/
def team_members_allowed (op : Op) (r : DbRole) (_uid : Option String)
    (_row : TeamMember) : Bool :=
  match op with
  | .select | .insert | .update | .delete => team_members_all_policy r

/-- Whether the final policy set permits `op` on a
`public.activity_logs` row; there is no update or delete policy. -/
def activity_logs_allowed (op : Op) (r : DbRole) (_uid : Option String)
    (_row : ActivityLog) : Bool :=
  match op with
  | .select | .insert => activity_logs_all_policy r
  | .update | .delete => false

/-- Whether the final policy set permits `op` on a `public.invitations`
row: all operations for authenticated, plus select for anon. -/
def invitations_allowed (op : Op) (r : DbRole) (_uid : Option String)
    (_row : Invitation) : Bool :=
  match op with
  | .select => invitations_all_policy r || invitations_select_anon r
  | .insert | .update | .delete => invitations_all_policy r

/-- The `unique(user_id, team_id)` property: no two Membership rows
share the same (user_id, team_id) pair. -/
def memUnique (s : Store) : Prop :=
  s.team_members.Pairwise
    (fun a b => ¬(a.user_id = b.user_id ∧ a.team_id = b.team_id))

instance (s : Store) : Decidable (memUnique s) := by
  unfold memUnique; infer_instance

/-- One state transition of the modelled system: profile insertion at
sign-up, team creation, invitation acceptance (directly or through the
sign-up handler), a join request, or a member invitation. -/
inductive Step : Store → Store → Prop where
  | profile (s : Store) (uid : String) (name : Option String) (s' : Store) :
      insertProfile s uid name = some s' → Step s s'
  | create (s : Store) (name userId : String) (tok mok : Bool) :
      Step s (createTeam s name userId tok mok).1
  | accept (s : Store) (authUid : Option String) (iid : Nat)
      (userId : String) :
      Step s (accept_invitation s authUid iid userId).1
  | signUp (s : Store) (iid : Nat) (em uid : String) :
      Step s (signUpAcceptInvitation s iid em uid).1
  | request (s : Store) (authUid : Option String) (code em ruid : String)
      (s' : Store) (r : Option Nat) :
      request_to_join_team s authUid code em ruid = .ok (s', r) →
      Step s s'
  | invite (s : Store) (callerId : String) (teamId : Nat)
      (email role : String) (inviteeId : Option String) :
      Step s (inviteMember s callerId teamId email role inviteeId).1

/-- A store state the system can reach from the freshly migrated
database. -/
def Reachable (s : Store) : Prop :=
  Relation.ReflTransGen Step initStore s

/-
Concrete fixtures used by the witness and counterexample theorems.
-/

/-- An active (not soft-deleted) profile. -/
def wProfile : Profile :=
  { id := "u1", name := some "Alice", role := "member",
    created_at := 0, updated_at := 0, deleted_at := none }

/-- A profile whose soft-delete marker is set. -/
def softDeletedProfile : Profile :=
  { id := "u1", name := some "Alice", role := "member",
    created_at := 0, updated_at := 0, deleted_at := some 5 }

/-- A request context authenticated as `u1`. -/
def wCtx : Ctx :=
  { authUser := some { id := "u1", email := some "a@x.com" },
    authUsers := [] }

/-- A store holding only the active profile `u1`. -/
def wActiveStore : Store := { initStore with users := [wProfile] }

/-- A store holding only the soft-deleted profile `u1`. -/
def softDeletedStore : Store :=
  { initStore with users := [softDeletedProfile] }

/-- Team 5 of the invitation scenario, with an invite code. -/
def wTeam : Team :=
  { id := 5, name := "Team 5", created_at := 0, updated_at := 0,
    stripe_customer_id := none, stripe_subscription_id := none,
    stripe_product_id := none, plan_name := none,
    subscription_status := none, invite_code := some "code5" }

/-- Profile of the member who issued the invitation. -/
def wOwner : Profile :=
  { id := "owner1", name := some "Owner", role := "member",
    created_at := 0, updated_at := 0, deleted_at := none }

/-- Profile of the invited / requesting user. -/
def wInvitee : Profile :=
  { id := "u2", name := some "Bea", role := "member",
    created_at := 0, updated_at := 0, deleted_at := none }

/-- A pending invitation of `b@x.com` to Team 5 with role member. -/
def wInv : Invitation :=
  { id := 1, team_id := 5, email := "b@x.com", role := "member",
    invited_by := "owner1", invited_at := 0, status := "pending" }

/-- A store with Team 5, its owner, the invited user's profile and the
pending invitation. -/
def wInvStore : Store :=
  { users := [wOwner, wInvitee], teams := [wTeam],
    team_members := [{ id := 1, user_id := "owner1", team_id := 5,
                       role := "owner", joined_at := 0 }],
    activity_logs := [], invitations := [wInv],
    nextTeamId := 6, nextMemberId := 2, nextLogId := 1,
    nextInvitationId := 2, now := 7 }

/-- A request context authenticated as the team owner `owner1`. -/
def wOwnerCtx : Ctx :=
  { authUser := some { id := "owner1", email := some "o@x.com" },
    authUsers := [] }

/-- A store with Team 5, its owner, and three activity-log rows (two
for Team 5 out of timestamp order, one for another team). -/
def wLogStore : Store :=
  { wInvStore with
      activity_logs :=
        [{ id := 1, team_id := 5, user_id := some "owner1",
           action := "CREATE_TEAM", timestamp := 3, ip_address := none },
         { id := 2, team_id := 5, user_id := none,
           action := "SIGN_IN", timestamp := 9, ip_address := none },
         { id := 3, team_id := 6, user_id := some "owner1",
           action := "SIGN_IN", timestamp := 4, ip_address := none }],
      nextLogId := 4 }

/-- The store after the profile `u1` is inserted into the fresh
database (first step of the reachability witness). -/
def wStepStore : Store :=
  { initStore with
      users := [{ id := "u1", name := none, role := "member",
                  created_at := 0, updated_at := 0, deleted_at := none }] }

/-- The owner Membership row produced by the reachability witness. -/
def wMember : TeamMember :=
  { id := 1, user_id := "u1", team_id := 1, role := "owner",
    joined_at := 0 }

theorem insertTeamMember_some {s s' : Store} {uid : String} {tid : Nat}
    {role : String} (h : insertTeamMember s uid tid role = some s') :
    (∀ m ∈ s.team_members, ¬(m.user_id = uid ∧ m.team_id = tid)) ∧
    s'.team_members = s.team_members ++
      [{ id := s.nextMemberId, user_id := uid, team_id := tid,
         role := role, joined_at := s.now }] ∧
    s'.users = s.users ∧ s'.teams = s.teams ∧
    s'.invitations = s.invitations ∧
    s'.activity_logs = s.activity_logs := by
  unfold insertTeamMember at h
  split at h
  · exact absurd h (by simp)
  · next hany =>
    split at h
    · exact absurd h (by simp)
    · split at h
      · exact absurd h (by simp)
      · rw [Option.some_inj] at h
        subst h
        refine ⟨?_, rfl, rfl, rfl, rfl, rfl⟩
        intro m hm hpair
        exact hany (by
          rw [List.any_eq_true]
          exact ⟨m, hm, by simp [hpair.1, hpair.2]⟩)

theorem insertTeamMember_dup {s : Store} {uid : String} {tid : Nat}
    (role : String) {m : TeamMember} (hm : m ∈ s.team_members)
    (hu : m.user_id = uid) (ht : m.team_id = tid) :
    insertTeamMember s uid tid role = none := by
  unfold insertTeamMember
  have : s.team_members.any
      (fun x => x.user_id == uid && x.team_id == tid) = true := by
    rw [List.any_eq_true]
    exact ⟨m, hm, by simp [hu, ht]⟩
  simp [this]

theorem log_activity_some {s s' : Store} {authUid : Option String}
    {teamId : Nat} {action : String} {ip : Option String}
    (h : log_activity s authUid teamId action ip = some s') :
    s'.team_members = s.team_members ∧ s'.users = s.users ∧
    s'.teams = s.teams ∧ s'.invitations = s.invitations := by
  unfold log_activity at h
  split at h
  · rw [Option.some_inj] at h
    subst h
    exact ⟨rfl, rfl, rfl, rfl⟩
  · exact absurd h (by simp)

theorem memUnique_insertTeamMember {s s' : Store} {uid : String}
    {tid : Nat} {role : String}
    (h : insertTeamMember s uid tid role = some s')
    (hs : memUnique s) : memUnique s' := by
  obtain ⟨hfresh, hms, -, -, -, -⟩ := insertTeamMember_some h
  unfold memUnique at hs ⊢
  rw [hms, List.pairwise_append]
  refine ⟨hs, List.pairwise_singleton _ _, ?_⟩
  intro a ha b hb
  simp only [List.mem_singleton] at hb
  subst hb
  intro hpair
  exact hfresh a ha ⟨hpair.1, hpair.2⟩

theorem memUnique_accept {s : Store} (authUid : Option String) (iid : Nat)
    (userId : String) (hs : memUnique s) :
    memUnique (accept_invitation s authUid iid userId).1 := by
  unfold accept_invitation
  split
  · exact hs
  · split
    · exact hs
    · next s1 hins =>
      dsimp only
      split
      · exact hs
      · next s3 hlog =>
        have h1 := memUnique_insertTeamMember hins hs
        have h2 := (log_activity_some hlog).1
        unfold memUnique at h1 ⊢
        rw [h2]
        exact h1

theorem memUnique_signUp {s : Store} (iid : Nat) (em uid : String)
    (hs : memUnique s) :
    memUnique (signUpAcceptInvitation s iid em uid).1 := by
  unfold signUpAcceptInvitation
  split
  · exact hs
  · exact memUnique_accept _ _ _ hs

theorem memUnique_createTeam {s : Store} (name userId : String)
    (tok mok : Bool) (hs : memUnique s) :
    memUnique (createTeam s name userId tok mok).1 := by
  unfold createTeam
  split
  · exact hs
  · split
    · exact hs
    · dsimp only
      split
      · exact hs
      · next s2 hins => exact memUnique_insertTeamMember hins hs

theorem memUnique_request {s s' : Store} {authUid : Option String}
    {code em ruid : String} {r : Option Nat}
    (h : request_to_join_team s authUid code em ruid = .ok (s', r))
    (hs : memUnique s) : memUnique s' := by
  unfold request_to_join_team at h
  split at h
  · simp only [Except.ok.injEq, Prod.mk.injEq] at h
    rw [← h.1]
    exact hs
  · split at h
    · simp only [Except.ok.injEq, Prod.mk.injEq] at h
      rw [← h.1]
      exact hs
    · split at h
      · simp only [Except.ok.injEq, Prod.mk.injEq] at h
        rw [← h.1]
        exact hs
      · split at h
        · exact absurd h (by simp)
        · dsimp only at h
          split at h
          · exact absurd h (by simp)
          · next s2 hlog =>
            simp only [Except.ok.injEq, Prod.mk.injEq] at h
            rw [← h.1]
            have h2 := (log_activity_some hlog).1
            unfold memUnique at hs ⊢
            rw [h2]
            exact hs

theorem memUnique_invite {s : Store} (callerId : String) (teamId : Nat)
    (email role : String) (inviteeId : Option String) (hs : memUnique s) :
    memUnique (inviteMember s callerId teamId email role inviteeId).1 := by
  unfold inviteMember
  split
  · exact hs
  · split
    · exact hs
    · exact hs

theorem memUnique_insertProfile {s s' : Store} {uid : String}
    {name : Option String} (h : insertProfile s uid name = some s')
    (hs : memUnique s) : memUnique s' := by
  unfold insertProfile at h
  split at h
  · exact absurd h (by simp)
  · rw [Option.some_inj] at h
    rw [← h]
    exact hs

theorem step_memUnique {s t : Store} (h : Step s t) (hs : memUnique s) :
    memUnique t := by
  cases h with
  | profile uid name s' hp => exact memUnique_insertProfile hp hs
  | create name userId tok mok => exact memUnique_createTeam _ _ _ _ hs
  | accept authUid iid userId => exact memUnique_accept _ _ _ hs
  | signUp iid em uid => exact memUnique_signUp _ _ _ hs
  | request authUid code em ruid s' r hr => exact memUnique_request hr hs
  | invite callerId teamId email role inviteeId =>
      exact memUnique_invite _ _ _ _ _ hs

theorem reachable_memUnique {s : Store} (h : Reachable s) : memUnique s := by
  induction h with
  | refl => exact List.Pairwise.nil
  | tail _ hstep ih => exact step_memUnique hstep ih

/-- C2: in the adopted (iteration-2) policy set, the row-visibility
(select) predicate on Team, Membership, Invitation and Activity-log
rows is unconditionally true for every authenticated caller; the only
identity-scoped rule is on Profile, where the select, insert and update
predicates hold exactly when the row's id equals the caller's identity
id, and delete on a Profile row is never permitted by this layer. -/
theorem adopted_policy_layer_spec (uid : String) (t : Team)
    (m : TeamMember) (i : Invitation) (a : ActivityLog) (p : Profile) :
    teams_allowed .select .authenticated (some uid) t = true ∧
    team_members_allowed .select .authenticated (some uid) m = true ∧
    invitations_allowed .select .authenticated (some uid) i = true ∧
    activity_logs_allowed .select .authenticated (some uid) a = true ∧
    users_allowed .select .authenticated (some uid) p = (uid == p.id) ∧
    users_allowed .insert .authenticated (some uid) p = (uid == p.id) ∧
    users_allowed .update .authenticated (some uid) p = (uid == p.id) ∧
    (∀ (r : DbRole) (u : Option String),
      users_allowed .delete r u p = false) :=
  ⟨rfl, rfl, rfl, rfl, rfl, rfl, rfl, fun _ _ => rfl⟩

/-- C9: under the final policy set, the anon select predicate on
invitations is unconditionally true — every Invitation row is readable
by unauthenticated callers. -/
theorem invitations_anon_select_spec (uid : Option String)
    (i : Invitation) :
    invitations_allowed .select .anon uid i = true := rfl

/-- C3: createTeam inserts the Team row first and the owner Membership
second; whenever the team insert succeeds and the membership insert
then fails (externally, or through a constraint violation), the call
reports "Failed to add user to team" and the inserted Team row remains
in the store — there is no compensating delete. -/
theorem createTeam_partial_failure_spec (s : Store) (name userId : String) :
    ((createTeam s name userId true false).2 =
        .error "Failed to add user to team" ∧
      (createTeam s name userId true false).1.teams =
        s.teams ++ [mkTeam s name]) ∧
    (insertTeamMember (createTeam s name userId true false).1 userId
        (mkTeam s name).id "owner" = none →
      (createTeam s name userId true true).2 =
          .error "Failed to add user to team" ∧
        (createTeam s name userId true true).1.teams =
          s.teams ++ [mkTeam s name]) := by
  refine ⟨⟨rfl, rfl⟩, fun h => ?_⟩
  have hstep : createTeam s name userId true true =
      ((createTeam s name userId true false).1,
        Except.error "Failed to add user to team") := by
    show (match insertTeamMember (createTeam s name userId true false).1
          userId (mkTeam s name).id "owner" with
        | none => ((createTeam s name userId true false).1,
            Except.error "Failed to add user to team")
        | some s2 => (s2, Except.ok (mkTeam s name))) = _
    rw [h]
  rw [hstep]
  exact ⟨rfl, rfl⟩

/-- Witness for C3 at a concrete input: in the fresh database the
membership insert fails (no profile row for the creator), and the
orphaned team remains. -/
theorem createTeam_partial_failure_witness :
    (createTeam initStore "T" "u1" true true).2 =
        .error "Failed to add user to team" ∧
      (createTeam initStore "T" "u1" true true).1.teams =
        initStore.teams ++ [mkTeam initStore "T"] :=
  (createTeam_partial_failure_spec initStore "T" "u1").2 (by decide)

/-- C8: an authenticated caller with no Membership row receives `none`
("no team") from getTeamForUser, not an error. -/
theorem getTeamForUser_no_membership (ctx : Ctx) (s : Store) (u : Profile)
    (hu : queriesGetUser ctx s = some u)
    (hm : ∀ m ∈ s.team_members, m.user_id ≠ u.id) :
    getTeamForUser ctx s = none := by
  unfold getTeamForUser
  rw [hu]
  have hfil : s.team_members.filter (fun m => m.user_id == u.id) = [] := by
    rw [List.filter_eq_nil_iff]
    intro m hmem
    simpa using hm m hmem
  simp [hfil, singleRow]

/-- Witness for C8: a caller whose profile exists but who has no
membership row gets `none`. -/
theorem getTeamForUser_no_membership_witness :
    getTeamForUser wCtx wActiveStore = none :=
  getTeamForUser_no_membership wCtx wActiveStore wProfile (by decide)
    (by decide)

/-- C5: in every reachable store state no two Membership rows share the
same (user_id, team_id) pair, and inserting a Membership whose pair
already exists fails. -/
theorem membership_pair_unique (s : Store) (hr : Reachable s) :
    memUnique s ∧
    ∀ m ∈ s.team_members, ∀ role : String,
      insertTeamMember s m.user_id m.team_id role = none :=
  ⟨reachable_memUnique hr,
   fun _ hm role => insertTeamMember_dup role hm rfl rfl⟩

/-- Witness for C5: after inserting a profile and creating a team from
the fresh database (a concrete reachable state), the owner's
(user, team) pair is unique and re-inserting it fails. -/
theorem membership_pair_unique_witness :
    memUnique (createTeam wStepStore "T" "u1" true true).1 ∧
    insertTeamMember (createTeam wStepStore "T" "u1" true true).1
      "u1" 1 "member" = none := by
  have hreach : Reachable (createTeam wStepStore "T" "u1" true true).1 :=
    Relation.ReflTransGen.tail
      (Relation.ReflTransGen.single
        (Step.profile initStore "u1" none wStepStore (by decide)))
      (Step.create wStepStore "T" "u1" true true)
  have h := membership_pair_unique _ hreach
  refine ⟨h.1, ?_⟩
  have hmem : wMember ∈
      (createTeam wStepStore "T" "u1" true true).1.team_members := by
    decide
  exact h.2 _ hmem "member"

theorem singleRow_eq_some {α : Type} {l : List α} {a : α}
    (h : singleRow l = some a) : l = [a] := by
  match l, h with
  | [x], h =>
    have hx : x = a := Option.some.inj h
    rw [hx]

theorem filter_eq_singleton_of_nodup {α β : Type} [DecidableEq β]
    {f : α → β} {l : List α} (hnd : (l.map f).Nodup) {p : α} (hp : p ∈ l)
    {pred : α → Bool} (hpred : pred p = true)
    (hid : ∀ q ∈ l, pred q = true → f q = f p) :
    l.filter pred = [p] := by
  induction l with
  | nil => cases hp
  | cons a t ih =>
    rw [List.map_cons, List.nodup_cons] at hnd
    cases hp with
    | head =>
      rw [List.filter_cons_of_pos hpred]
      have ht : t.filter pred = [] := by
        rw [List.filter_eq_nil_iff]
        intro q hq hpq
        exact hnd.1 ((hid q (List.mem_cons_of_mem _ hq) hpq) ▸
          List.mem_map_of_mem f hq)
      rw [ht]
    | tail _ hp' =>
      have hpa : ¬ pred a = true := by
        intro hpa
        have := hid a (List.mem_cons_self a t) hpa
        exact hnd.1 (this ▸ List.mem_map_of_mem f hp')
      rw [List.filter_cons_of_neg hpa]
      exact ih hnd.2 hp'
        (fun q hq hpq => hid q (List.mem_cons_of_mem _ hq) hpq)

/-- C4 counterexample: the auth-adapter getUser
(`lib/auth/supabase.ts`) returns the Profile row of the ambient
identity even when its soft-delete marker is set, so "a profile with a
non-null deleted_at is never returned" fails for this getUser. -/
theorem authGetUser_returns_soft_deleted :
    authGetUser wCtx softDeletedStore = some softDeletedProfile ∧
    softDeletedProfile.deleted_at = some 5 :=
  ⟨by decide, rfl⟩

/-- C4 (amended): the db-queries getUser returns none without an error
when no ambient identity exists, and otherwise returns exactly the
non-soft-deleted Profile row whose id equals the identity id (none when
no such row exists); the auth-adapter getUser performs the same lookup
but without the soft-delete exclusion. -/
theorem getUser_spec (ctx : Ctx) (s : Store)
    (hnd : (s.users.map Profile.id).Nodup) :
    (ctx.authUser = none →
      queriesGetUser ctx s = none ∧ authGetUser ctx s = none) ∧
    (∀ au : AuthUser, ctx.authUser = some au →
      ((∀ p : Profile, queriesGetUser ctx s = some p →
          p ∈ s.users ∧ p.id = au.id ∧ p.deleted_at = none) ∧
       (∀ p ∈ s.users, p.id = au.id → p.deleted_at = none →
          queriesGetUser ctx s = some p) ∧
       ((∀ p ∈ s.users, p.id = au.id → p.deleted_at ≠ none) →
          queriesGetUser ctx s = none) ∧
       (∀ p ∈ s.users, p.id = au.id → authGetUser ctx s = some p))) := by
  constructor
  · intro hau
    unfold queriesGetUser authGetUser
    rw [hau]
    exact ⟨rfl, rfl⟩
  · intro au hau
    refine ⟨?_, ?_, ?_, ?_⟩
    · intro p hp
      unfold queriesGetUser at hp
      rw [hau] at hp
      have hl := singleRow_eq_some hp
      have hmem : p ∈ s.users.filter
          (fun u => u.id == au.id && u.deleted_at == none) := by
        rw [hl]
        exact List.mem_singleton_self p
      rw [List.mem_filter] at hmem
      have hcond := hmem.2
      simp only [Bool.and_eq_true, beq_iff_eq] at hcond
      exact ⟨hmem.1, hcond.1, hcond.2⟩
    · intro p hp hpid hpdel
      unfold queriesGetUser
      rw [hau]
      show singleRow (s.users.filter
        (fun u => u.id == au.id && u.deleted_at == none)) = some p
      have hfil : s.users.filter
          (fun u => u.id == au.id && u.deleted_at == none) = [p] := by
        refine filter_eq_singleton_of_nodup hnd hp ?_ ?_
        · simp [hpid, hpdel]
        · intro q _ hq
          simp only [Bool.and_eq_true, beq_iff_eq] at hq
          rw [hq.1, hpid]
      rw [hfil]
      rfl
    · intro hnone
      unfold queriesGetUser
      rw [hau]
      show singleRow (s.users.filter
        (fun u => u.id == au.id && u.deleted_at == none)) = none
      have hfil : s.users.filter
          (fun u => u.id == au.id && u.deleted_at == none) = [] := by
        rw [List.filter_eq_nil_iff]
        intro q hq hcond
        simp only [Bool.and_eq_true, beq_iff_eq] at hcond
        exact hnone q hq hcond.1 hcond.2
      rw [hfil]
      rfl
    · intro p hp hpid
      unfold authGetUser
      rw [hau]
      show singleRow (s.users.filter (fun u => u.id == au.id)) = some p
      have hfil : s.users.filter (fun u => u.id == au.id) = [p] := by
        refine filter_eq_singleton_of_nodup hnd hp ?_ ?_
        · simp [hpid]
        · intro q _ hq
          simp only [beq_iff_eq] at hq
          rw [hq, hpid]
      rw [hfil]
      rfl

/-- Witness for C4 at concrete inputs: the db-queries getUser excludes
a soft-deleted profile and returns an active one; the auth-adapter
getUser returns the soft-deleted row. -/
theorem getUser_spec_witness :
    queriesGetUser wCtx softDeletedStore = none ∧
    authGetUser wCtx softDeletedStore = some softDeletedProfile ∧
    queriesGetUser wCtx wActiveStore = some wProfile := by
  have h1 := getUser_spec wCtx softDeletedStore (by decide)
  have h2 := getUser_spec wCtx wActiveStore (by decide)
  refine ⟨?_, ?_, ?_⟩
  · exact (h1.2 _ rfl).2.2.1 (by decide)
  · exact (h1.2 _ rfl).2.2.2 softDeletedProfile (by decide) (by decide)
  · exact (h2.2 _ rfl).2.1 wProfile (by decide) (by decide) (by decide)

theorem accept_invitation_true {s : Store} {authUid : Option String}
    {iid : Nat} {uid : String}
    (h : (accept_invitation s authUid iid uid).2 = true) :
    ∃ j ∈ s.invitations, j.id = iid ∧ j.status = "pending" ∧
      (accept_invitation s authUid iid uid).1.team_members =
        s.team_members ++
          [{ id := s.nextMemberId, user_id := uid, team_id := j.team_id,
             role := j.role, joined_at := s.now }] ∧
      (accept_invitation s authUid iid uid).1.invitations =
        s.invitations.map
          (fun i => if i.id == iid then { i with status := "accepted" }
                    else i) := by
  unfold accept_invitation at h ⊢
  split at h
  · exact absurd h (by simp)
  · next j hfind =>
    simp only [hfind]
    split at h
    · exact absurd h (by simp)
    · next s1 hins =>
      dsimp only at h
      split at h
      · exact absurd h (by simp)
      · next s3 hlog =>
        have hf := List.find?_some hfind
        simp only [Bool.and_eq_true, beq_iff_eq] at hf
        have hmem := List.mem_of_find?_eq_some hfind
        obtain ⟨-, hins2, -, -, hins5, -⟩ := insertTeamMember_some hins
        have hlogtm := (log_activity_some hlog).1
        have hloginv := (log_activity_some hlog).2.2.2
        refine ⟨j, hmem, hf.1, hf.2, ?_, ?_⟩
        · rw [hlogtm]
          exact hins2
        · rw [hloginv, hins5]

theorem accept_invitation_false {s : Store} {authUid : Option String}
    {iid : Nat} {uid : String}
    (h : (accept_invitation s authUid iid uid).2 = false) :
    (accept_invitation s authUid iid uid).1 = s := by
  unfold accept_invitation at h ⊢
  split at h
  · rfl
  · split at h
    · rfl
    · dsimp only at h ⊢
      split at h
      · rfl
      · exact absurd h (by simp)

/-- C6: invitation status transitions are one-way under the system's
operations.  `accept_invitation` only rewrites a pending invitation to
accepted (every surviving row keeps its id, team and email, and its
status is unchanged unless it was pending and becomes accepted — in
particular an accepted or cancelled invitation keeps its status), and
`request_to_join_team` never modifies an existing invitation row. -/
theorem invitation_status_monotonic (s : Store) (authUid : Option String)
    (iid : Nat) (userId : String) (code em ruid : String)
    (hnd : (s.invitations.map Invitation.id).Nodup) :
    (∀ i ∈ s.invitations,
      ∃ i' ∈ (accept_invitation s authUid iid userId).1.invitations,
        i'.id = i.id ∧ i'.team_id = i.team_id ∧ i'.email = i.email ∧
        (i' = i ∨ (i.status = "pending" ∧ i'.status = "accepted")) ∧
        ((i.status = "accepted" ∨ i.status = "cancelled") →
          i'.status = i.status)) ∧
    (∀ s' r, request_to_join_team s authUid code em ruid = .ok (s', r) →
      ∀ i ∈ s.invitations, i ∈ s'.invitations) := by
  constructor
  · intro i hi
    cases hb : (accept_invitation s authUid iid userId).2 with
    | false =>
      rw [accept_invitation_false hb]
      exact ⟨i, hi, rfl, rfl, rfl, Or.inl rfl, fun _ => rfl⟩
    | true =>
      obtain ⟨j, hjmem, hjid, hjpend, -, hinvs⟩ := accept_invitation_true hb
      rw [hinvs]
      by_cases hcase : i.id = iid
      · have hij : i = j :=
          List.inj_on_of_nodup_map hnd hi hjmem (by rw [hcase, hjid])
        refine ⟨{ i with status := "accepted" },
          ?_, rfl, rfl, rfl, Or.inr ⟨hij ▸ hjpend, rfl⟩, ?_⟩
        · have hm := List.mem_map_of_mem
            (fun x => if x.id == iid then { x with status := "accepted" }
                      else x) hi
          simpa [hcase] using hm
        · intro hacc
          have hpend : i.status = "pending" := hij ▸ hjpend
          rcases hacc with hacc | hacc <;> rw [hacc] at hpend <;>
            exact absurd hpend (by simp)
      · refine ⟨i, ?_, rfl, rfl, rfl, Or.inl rfl, fun _ => rfl⟩
        have hm := List.mem_map_of_mem
          (fun x => if x.id == iid then { x with status := "accepted" }
                    else x) hi
        simpa [hcase] using hm
  · intro s' r h i hi
    unfold request_to_join_team at h
    split at h
    · simp only [Except.ok.injEq, Prod.mk.injEq] at h
      rw [← h.1]
      exact hi
    · split at h
      · simp only [Except.ok.injEq, Prod.mk.injEq] at h
        rw [← h.1]
        exact hi
      · split at h
        · simp only [Except.ok.injEq, Prod.mk.injEq] at h
          rw [← h.1]
          exact hi
        · split at h
          · exact absurd h (by simp)
          · dsimp only at h
            split at h
            · exact absurd h (by simp)
            · next s2 hlog =>
              simp only [Except.ok.injEq, Prod.mk.injEq] at h
              rw [← h.1]
              rw [(log_activity_some hlog).2.2.2]
              exact List.mem_append_left _ hi

/-- Witness for C6: the pending invitation of the concrete store is
carried to an accepted row with the same id, team and email by a
successful acceptance. -/
theorem invitation_status_monotonic_witness :
    ∃ i' ∈ (accept_invitation wInvStore (some "u2") 1 "u2").1.invitations,
      i'.id = wInv.id ∧ i'.team_id = wInv.team_id ∧
      i'.email = wInv.email ∧
      (i' = wInv ∨ (wInv.status = "pending" ∧ i'.status = "accepted")) ∧
      ((wInv.status = "accepted" ∨ wInv.status = "cancelled") →
        i'.status = wInv.status) :=
  (invitation_status_monotonic wInvStore (some "u2") 1 "u2" "code5"
    "c@x.com" "u2" (by decide)).1 wInv (by decide)

theorem log_activity_ok (s : Store) (authUid : Option String)
    (teamId : Nat) (action : String) (ip : Option String)
    (hteam : s.teams.any (fun x => x.id == teamId) = true)
    (hfk : userFkOk s authUid = true) :
    log_activity s authUid teamId action ip =
      some { s with
        activity_logs := s.activity_logs ++
          [{ id := s.nextLogId, team_id := teamId, user_id := authUid,
             action := action, timestamp := s.now, ip_address := ip }],
        nextLogId := s.nextLogId + 1 } := by
  unfold log_activity
  rw [hteam, hfk]
  rfl

/-- C7: `request_to_join_team`, given that the invite code resolves to
team `t`, rejects without inserting any row when the requester already
has a Membership in `t` or when a pending or requested Invitation for
`t` and the email already exists; otherwise (with the insert
constraints satisfiable) it inserts exactly one new Invitation row for
`t` and the email, with role member and status requested. -/
theorem request_to_join_spec (s : Store) (authUid : Option String)
    (code em ruid : String) (t : Team)
    (ht : s.teams.find? (fun x => x.invite_code == some code) = some t) :
    (s.team_members.any
        (fun m => m.team_id == t.id && m.user_id == ruid) = true →
      request_to_join_team s authUid code em ruid = .ok (s, none)) ∧
    (s.invitations.any
        (fun i => i.team_id == t.id && i.email == em &&
          (i.status == "pending" || i.status == "requested")) = true →
      request_to_join_team s authUid code em ruid = .ok (s, none)) ∧
    (s.team_members.any
        (fun m => m.team_id == t.id && m.user_id == ruid) = false →
      s.invitations.any
        (fun i => i.team_id == t.id && i.email == em &&
          (i.status == "pending" || i.status == "requested")) = false →
      s.users.any (fun u => u.id == ruid) = true →
      userFkOk s authUid = true →
      ∃ s', request_to_join_team s authUid code em ruid =
          .ok (s', some s.nextInvitationId) ∧
        s'.invitations = s.invitations ++
          [{ id := s.nextInvitationId, team_id := t.id, email := em,
             role := "member", invited_by := ruid, invited_at := s.now,
             status := "requested" }] ∧
        s'.team_members = s.team_members ∧ s'.teams = s.teams ∧
        s'.users = s.users) := by
  have hteam : s.teams.any (fun x => x.id == t.id) = true := by
    rw [List.any_eq_true]
    exact ⟨t, List.mem_of_find?_eq_some ht, by simp⟩
  refine ⟨?_, ?_, ?_⟩
  · intro h
    simp [request_to_join_team, ht, h]
  · intro h
    cases hmem : s.team_members.any
        (fun m => m.team_id == t.id && m.user_id == ruid) with
    | true => simp [request_to_join_team, ht, hmem]
    | false => simp [request_to_join_team, ht, hmem, h]
  · intro h1 h2 h3 hfk
    have hlog := log_activity_ok
      { s with
          invitations := s.invitations ++
            [{ id := s.nextInvitationId, team_id := t.id, email := em,
               role := "member", invited_by := ruid, invited_at := s.now,
               status := "requested" }],
          nextInvitationId := s.nextInvitationId + 1 }
      authUid t.id "REQUEST_TO_JOIN" none hteam hfk
    refine ⟨{ s with
        invitations := s.invitations ++
          [{ id := s.nextInvitationId, team_id := t.id, email := em,
             role := "member", invited_by := ruid, invited_at := s.now,
             status := "requested" }],
        nextInvitationId := s.nextInvitationId + 1,
        activity_logs := s.activity_logs ++
          [{ id := s.nextLogId, team_id := t.id, user_id := authUid,
             action := "REQUEST_TO_JOIN", timestamp := s.now,
             ip_address := none }],
        nextLogId := s.nextLogId + 1 }, ?_, rfl, rfl, rfl, rfl⟩
    unfold request_to_join_team
    rw [ht]
    show (if (s.team_members.any
          (fun m => m.team_id == t.id && m.user_id == ruid)) = true then
        Except.ok (s, none)
      else _) = _
    rw [if_neg (by rw [h1]; exact Bool.false_ne_true)]
    rw [if_neg (by rw [h2]; exact Bool.false_ne_true)]
    rw [if_neg (by rw [h3]; simp)]
    dsimp only
    rw [hlog]

/-- Witness for C7: inviting `b@x.com` again while a pending invitation
exists returns null and leaves the store unchanged; a fresh join
request from `u2` for `c@x.com` inserts exactly one requested row. -/
theorem request_to_join_spec_witness :
    (request_to_join_team wInvStore (some "u2") "code5" "b@x.com" "u2" =
      .ok (wInvStore, none)) ∧
    ∃ s', request_to_join_team wInvStore (some "u2") "code5" "c@x.com"
          "u2" = .ok (s', some wInvStore.nextInvitationId) ∧
      s'.invitations = wInvStore.invitations ++
        [{ id := wInvStore.nextInvitationId, team_id := wTeam.id,
           email := "c@x.com", role := "member", invited_by := "u2",
           invited_at := wInvStore.now, status := "requested" }] ∧
      s'.team_members = wInvStore.team_members ∧
      s'.teams = wInvStore.teams ∧ s'.users = wInvStore.users := by
  constructor
  · exact (request_to_join_spec wInvStore (some "u2") "code5" "b@x.com"
      "u2" wTeam (by decide)).2.1 (by decide)
  · exact (request_to_join_spec wInvStore (some "u2") "code5" "c@x.com"
      "u2" wTeam (by decide)).2.2 (by decide) (by decide) (by decide)
      (by decide)

/-- C1: accepting an invitation during sign-up succeeds only on a
pending invitation whose email equals the submitted email exactly; on
success the invitee gains a Membership with the invitation's team and
role and the invitation becomes accepted; when no invitation matches,
the operation fails (returns false) with the store unchanged. -/
theorem signUp_invitation_spec (s : Store) (iid : Nat) (em uid : String)
    (hnd : (s.invitations.map Invitation.id).Nodup) :
    ((signUpAcceptInvitation s iid em uid).2 = true →
      ∃ i ∈ s.invitations, i.id = iid ∧ i.status = "pending" ∧
        i.email = em ∧
        (∃ m ∈ (signUpAcceptInvitation s iid em uid).1.team_members,
          m.user_id = uid ∧ m.team_id = i.team_id ∧ m.role = i.role) ∧
        (∃ i' ∈ (signUpAcceptInvitation s iid em uid).1.invitations,
          i'.id = iid ∧ i'.status = "accepted")) ∧
    ((∀ i ∈ s.invitations,
        ¬(i.id = iid ∧ i.status = "pending" ∧ i.email = em)) →
      signUpAcceptInvitation s iid em uid = (s, false)) := by
  constructor
  · intro h
    unfold signUpAcceptInvitation at h ⊢
    split at h
    · exact absurd h (by simp)
    · next i0 hfind0 =>
      obtain ⟨j, hjmem, hjid, hjpend, hmembers, hinvs⟩ :=
        accept_invitation_true h
      have hf0 := List.find?_some hfind0
      simp only [Bool.and_eq_true, beq_iff_eq] at hf0
      have h0mem := List.mem_of_find?_eq_some hfind0
      have hji : j = i0 :=
        List.inj_on_of_nodup_map hnd hjmem h0mem
          (by rw [hjid, hf0.1.1])
      refine ⟨j, hjmem, hjid, hjpend, ?_, ?_, ?_⟩
      · rw [hji]
        exact hf0.2
      · refine ⟨{ id := s.nextMemberId, user_id := uid,
                  team_id := j.team_id, role := j.role,
                  joined_at := s.now },
          ?_, rfl, rfl, rfl⟩
        rw [hmembers]
        exact List.mem_append_right _ (List.mem_singleton_self _)
      · refine ⟨{ j with status := "accepted" }, ?_, hjid, rfl⟩
        rw [hinvs]
        have hm := List.mem_map_of_mem
          (fun i => if i.id == iid then { i with status := "accepted" }
                    else i) hjmem
        simpa [hjid] using hm
  · intro hno
    unfold signUpAcceptInvitation
    have hfind : s.invitations.find?
        (fun i => i.id == iid && i.status == "pending" &&
          i.email == em) = none := by
      rw [List.find?_eq_none]
      intro i hi hcond
      simp only [Bool.and_eq_true, beq_iff_eq] at hcond
      exact hno i hi ⟨hcond.1.1, hcond.1.2, hcond.2⟩
    rw [hfind]

/-- Witness for C1: in the concrete store, sign-up acceptance of the
pending invitation for `b@x.com` to Team 5 succeeds, the caller joins
Team 5 as member, and the invitation becomes accepted. -/
theorem signUp_invitation_spec_witness :
    ∃ i ∈ wInvStore.invitations, i.id = 1 ∧ i.status = "pending" ∧
      i.email = "b@x.com" ∧
      (∃ m ∈ (signUpAcceptInvitation wInvStore 1 "b@x.com"
          "u2").1.team_members,
        m.user_id = "u2" ∧ m.team_id = i.team_id ∧ m.role = i.role) ∧
      (∃ i' ∈ (signUpAcceptInvitation wInvStore 1 "b@x.com"
          "u2").1.invitations,
        i'.id = 1 ∧ i'.status = "accepted") :=
  (signUp_invitation_spec wInvStore 1 "b@x.com" "u2" (by decide)).1
    (by decide)

theorem mem_insertDesc {x a : ActivityLog} {l : List ActivityLog}
    (h : x ∈ insertDesc a l) : x = a ∨ x ∈ l := by
  induction l with
  | nil =>
    simp only [insertDesc, List.mem_singleton] at h
    exact Or.inl h
  | cons b t ih =>
    simp only [insertDesc] at h
    split at h
    · rcases List.mem_cons.1 h with h | h
      · exact Or.inl h
      · exact Or.inr h
    · rcases List.mem_cons.1 h with h | h
      · exact Or.inr (h ▸ List.mem_cons_self b t)
      · rcases ih h with h | h
        · exact Or.inl h
        · exact Or.inr (List.mem_cons_of_mem b h)

theorem pairwise_insertDesc {a : ActivityLog} {l : List ActivityLog}
    (hl : l.Pairwise (fun x y => y.timestamp ≤ x.timestamp)) :
    (insertDesc a l).Pairwise (fun x y => y.timestamp ≤ x.timestamp) := by
  induction l with
  | nil => simp [insertDesc]
  | cons b t ih =>
    rw [List.pairwise_cons] at hl
    obtain ⟨hb, ht⟩ := hl
    simp only [insertDesc]
    split
    · next hge =>
      rw [List.pairwise_cons]
      refine ⟨?_, ?_⟩
      · intro y hy
        rcases List.mem_cons.1 hy with hy | hy
        · rw [hy]; exact hge
        · exact le_trans (hb y hy) hge
      · rw [List.pairwise_cons]
        exact ⟨hb, ht⟩
    · next hlt =>
      rw [List.pairwise_cons]
      refine ⟨?_, ?_⟩
      · intro y hy
        rcases mem_insertDesc hy with hy | hy
        · rw [hy]
          exact le_of_not_le hlt
        · exact hb y hy
      · exact ih ht

theorem sortDesc_pairwise (l : List ActivityLog) :
    (sortDesc l).Pairwise (fun x y => y.timestamp ≤ x.timestamp) := by
  induction l with
  | nil => simp [sortDesc]
  | cons a t ih =>
    simp only [sortDesc]
    exact pairwise_insertDesc ih

theorem mem_sortDesc {x : ActivityLog} {l : List ActivityLog}
    (h : x ∈ sortDesc l) : x ∈ l := by
  induction l with
  | nil => exact absurd h (by simp [sortDesc])
  | cons a t ih =>
    simp only [sortDesc] at h
    rcases mem_insertDesc h with h | h
    · exact h ▸ List.mem_cons_self a t
    · exact List.mem_cons_of_mem a (ih h)

/-- C10: getActivityLogs raises "User not authenticated" when getUser
resolves to null, returns the empty list when the caller has no team,
and otherwise returns at most 10 entries, all drawn from the caller's
own team's activity-log rows, ordered by timestamp descending, with
userName computed by the joined-profile rule (in particular "Unknown"
whenever the acting profile is absent). -/
theorem getActivityLogs_spec (ctx : Ctx) (s : Store) :
    (queriesGetUser ctx s = none →
      getActivityLogs ctx s = .error "User not authenticated") ∧
    (∀ u, queriesGetUser ctx s = some u →
      (getUserWithTeam s u.id = none → getActivityLogs ctx s = .ok []) ∧
      (∀ p tid, getUserWithTeam s u.id = some (p, tid) →
        ∃ l, getActivityLogs ctx s = .ok l ∧ l.length ≤ 10 ∧
          l.Pairwise (fun e1 e2 => e2.timestamp ≤ e1.timestamp) ∧
          (∀ e ∈ l, ∃ a ∈ s.activity_logs, a.team_id = tid ∧
            e.id = a.id ∧ e.action = a.action ∧
            e.timestamp = a.timestamp ∧ e.ipAddress = a.ip_address ∧
            e.userName = userNameOf s a) ∧
          (∀ a : ActivityLog,
            a.user_id.bind
                (fun uid2 => s.users.find? (fun u2 => u2.id == uid2)) =
              none →
            userNameOf s a = "Unknown"))) := by
  refine ⟨?_, ?_⟩
  · intro h
    simp [getActivityLogs, h]
  · intro u hu
    refine ⟨?_, ?_⟩
    · intro hteam
      simp [getActivityLogs, hu, hteam]
    · intro p tid hteam
      simp only [getActivityLogs, hu, hteam]
      refine ⟨_, rfl, ?_, ?_, ?_, ?_⟩
      · rw [List.length_map]
        exact List.length_take_le _ _
      · rw [List.pairwise_map]
        exact ((sortDesc_pairwise _).sublist (List.take_sublist _ _))
      · intro e he
        rw [List.mem_map] at he
        obtain ⟨a, ha, hea⟩ := he
        have ha2 :=
          mem_sortDesc (List.mem_of_mem_take ha)
        rw [List.mem_filter] at ha2
        subst hea
        exact ⟨a, ha2.1, by simpa using ha2.2, rfl, rfl, rfl, rfl, rfl⟩
      · intro a hnone
        simp [userNameOf, hnone, orUnknown]

/-- Witness for C10 at a concrete store: the owner of Team 5 gets its
two log rows back, newest first. -/
theorem getActivityLogs_spec_witness :
    ∃ l, getActivityLogs wOwnerCtx wLogStore = .ok l ∧ l.length ≤ 10 ∧
      l.Pairwise (fun e1 e2 => e2.timestamp ≤ e1.timestamp) ∧
      (∀ e ∈ l, ∃ a ∈ wLogStore.activity_logs, a.team_id = 5 ∧
        e.id = a.id ∧ e.action = a.action ∧ e.timestamp = a.timestamp ∧
        e.ipAddress = a.ip_address ∧ e.userName = userNameOf wLogStore a) ∧
      (∀ a : ActivityLog,
        a.user_id.bind
            (fun uid2 => wLogStore.users.find? (fun u2 => u2.id == uid2)) =
          none →
        userNameOf wLogStore a = "Unknown") :=
  ((getActivityLogs_spec wOwnerCtx wLogStore).2 wOwner (by decide)).2
    wOwner 5 (by decide)
